import Mathlib

/-!
Verification of the featureform task/task-run manager (scheduling package).

The definitions below are a shallow embedding of the Go source:
the `TaskManager` operations are translated from `task_manager.go`
(`src/unnamed/part_001`), with the ordered key/value backend passed
explicitly as a state value and the wall clock passed as an argument.
Machine integers are modelled as `Int` (overflow is irrelevant at the
value ranges involved), fallible code returns `Except`/`Res`, and a Go
runtime panic (out-of-range slice index) is the distinguished outcome
`Res.crash`.
-/

set_option maxHeartbeats 1000000

namespace Scheduling

/-- Embedding of Go `time.Time` instants restricted to what the scheduler
uses: UTC calendar fields plus an intra-day clock value (an abstract count
of sub-day units).  Chronological order on valid instants is lexicographic
on year, month, day and clock. -/
structure GoTime where
  year : Int
  month : Int
  day : Int
  clock : Int
deriving DecidableEq, Repr

/-- Go zero value `time.Time`: January 1 of year 1, 00:00:00 UTC. -/
def GoTime.zero : GoTime := { year := 1, month := 1, day := 1, clock := 0 }

/-- `time.Time.After`: strict chronological comparison of instants. -/
def GoTime.after (t u : GoTime) : Bool :=
  if t.year ≠ u.year then decide (t.year > u.year)
  else if t.month ≠ u.month then decide (t.month > u.month)
  else if t.day ≠ u.day then decide (t.day > u.day)
  else decide (t.clock > u.clock)

/-- Go `time.Month.String`: the English month name for 1..12, otherwise the
`%!Month(n)` form Go prints for an out-of-range month value. -/
def monthName (m : Int) : String :=
  if m = 1 then "January" else if m = 2 then "February" else if m = 3 then "March"
  else if m = 4 then "April" else if m = 5 then "May" else if m = 6 then "June"
  else if m = 7 then "July" else if m = 8 then "August" else if m = 9 then "September"
  else if m = 10 then "October" else if m = 11 then "November" else if m = 12 then "December"
  else "%!Month(" ++ toString m ++ ")"

/-- Accumulate a decimal digit string; fails on any non-digit. -/
def digitsToNatAux : Nat → List Char → Option Nat
  | acc, [] => some acc
  | acc, c :: rest =>
    if c.isDigit then digitsToNatAux (acc * 10 + (c.toNat - 48)) rest else none

/-- Parse a non-empty all-digit string. -/
def digitsToNat : List Char → Option Nat
  | [] => none
  | c :: rest => digitsToNatAux 0 (c :: rest)

/-- Go `strconv.Atoi`: optional sign followed by at least one decimal digit,
no other characters.  Modelled over unbounded integers (the overflow branch
of `Atoi` is unreachable at the key lengths involved). -/
def goAtoi (s : String) : Option Int :=
  match s.data with
  | [] => none
  | c :: rest =>
    if c = '+' then (digitsToNat rest).map (fun n => (n : Int))
    else if c = '-' then (digitsToNat rest).map (fun n => -(n : Int))
    else (digitsToNat (c :: rest)).map (fun n => (n : Int))

/-- Go `string(i)` conversion applied to an integer type: the UTF-8 encoding
of the code point `i`, or the Unicode replacement character when `i` is not
a valid code point.  This is a rune conversion, not decimal formatting. -/
def goStringOfInt (i : Int) : String :=
  if 0 ≤ i ∧ (i.toNat < 55296 ∨ (57343 < i.toNat ∧ i.toNat < 1114112))
  then String.mk [Char.ofNat i.toNat]
  else "�"

/-- Whether `pat` is a prefix of `s` (over character lists). -/
def listHasPfx : List Char → List Char → Bool
  | _, [] => true
  | [], _ :: _ => false
  | c :: cs, d :: ds => c = d && listHasPfx cs ds

/-- Whether `pat` occurs as a contiguous sublist of `s`. -/
def listContains : List Char → List Char → Bool
  | [], pat => listHasPfx [] pat
  | c :: rest, pat => listHasPfx (c :: rest) pat || listContains rest pat

/-- Go `strings.Contains`: substring containment. -/
def containsSubstr (s pat : String) : Bool :=
  listContains s.data pat.data

/-- Go `strings.HasPrefix` on string keys. -/
def strStartsWith (s p : String) : Bool :=
  listHasPfx s.data p.data

/-- The splitting loop of Go `strings.Split`: leftmost non-overlapping
occurrences of `sep`.  The fuel argument (instantiated with the input
length) only makes the recursion structural; it is never exhausted for a
non-empty separator. -/
def goSplitFuel (sep : List Char) : Nat → List Char → List Char → List (List Char)
  | _, acc, [] => [acc.reverse]
  | 0, acc, s => [acc.reverse ++ s]
  | fuel + 1, acc, c :: rest =>
    if listHasPfx (c :: rest) sep then
      acc.reverse :: goSplitFuel sep fuel [] (List.drop sep.length (c :: rest))
    else goSplitFuel sep fuel (c :: acc) rest

/-- Go `strings.Split` with a non-empty separator. -/
def goSplit (s sep : String) : List String :=
  (goSplitFuel sep.data s.data.length [] s.data).map String.mk

/-- The text after the first occurrence of `pat` (empty when absent). -/
def suffixAfterFirstAux (pat : List Char) : List Char → List Char
  | [] => []
  | c :: rest =>
    if listHasPfx (c :: rest) pat then List.drop pat.length (c :: rest)
    else suffixAfterFirstAux pat rest

/-- The text of `k` after the first occurrence of `pat` (empty when `pat`
does not occur in `k`). -/
def suffixAfterFirst (k pat : String) : String :=
  String.mk (suffixAfterFirstAux pat.data k.data)

/-- Trigger type tags are plain strings in the source. -/
abbrev TriggerType := String

def oneOffTrigger : TriggerType := "OneOffTrigger"

def dummyTrigger : TriggerType := "DummyTrigger"

/-- Modelled from the spec: the `OneOffTrigger` variant (its Go struct is not
under src/; the fields follow the test fixtures in task_run_test.go). -/
structure OneOffTrigger where
  TriggerName : String
  TriggerType : TriggerType
deriving DecidableEq, Repr

/-- Modelled from the spec: the `DummyTrigger` variant (its Go struct is not
under src/; the fields follow the test fixtures in task_run_test.go). -/
structure DummyTrigger where
  TriggerName : String
  TriggerType : TriggerType
  DummyField : Bool
deriving DecidableEq, Repr

/-- Modelled from the spec: the polymorphic `Trigger` interface as the closed
sum of its registered variants. -/
inductive Trigger where
  | oneOff (t : OneOffTrigger)
  | dummy (t : DummyTrigger)
deriving DecidableEq, Repr

/-- The `Type()` method of each trigger variant: its tag string. -/
def Trigger.typeOf : Trigger → TriggerType
  | .oneOff _ => oneOffTrigger
  | .dummy _ => dummyTrigger

/-- The closed status set of a task run. -/
inductive Status where
  | pending
  | running
  | failed
  | succeeded
deriving DecidableEq, Repr

/-- Modelled from the spec: the closed `TaskType` tag set (single value). -/
inductive TaskType where
  | resourceCreation
deriving DecidableEq, Repr

/-- Modelled from the spec: the polymorphic task `Target` as the closed sum
of its variants (NameVariant, Provider). -/
inductive TaskTarget where
  | nameVariant (name : String) (variant : String)
  | provider (name : String)
deriving DecidableEq, Repr

/-- The `Type()` method of each target variant: its tag string. -/
def TaskTarget.typeOf : TaskTarget → String
  | .nameVariant _ _ => "NameVariant"
  | .provider _ => "Provider"

/-- `TaskMetadata`: persistent description of a task. -/
structure TaskMetadata where
  ID : Int
  Name : String
  TaskType : TaskType
  Target : TaskTarget
  TargetType : String
  DateCreated : GoTime
deriving DecidableEq, Repr

/-- One entry of the per-task runs index. -/
structure TaskRunSimple where
  RunID : Int
  DateCreated : GoTime
deriving DecidableEq, Repr

/-- The per-task runs index record. -/
structure TaskRuns where
  TaskID : Int
  Runs : List TaskRunSimple
deriving DecidableEq, Repr

/-- `TaskRunMetadata`: the detailed record of one run. -/
structure TaskRunMetadata where
  ID : Int
  TaskId : Int
  Name : String
  Trigger : Trigger
  TriggerType : TriggerType
  Status : Status
  StartTime : GoTime
  EndTime : GoTime
  Logs : List String
  Error : String
deriving DecidableEq, Repr

/-- Modelled from the spec: a stored serialized record.  The serialization
code (Marshal/Unmarshal of the scheduling structs) is not under src/; the
spec requires `decode(encode v) = v` for every legal value, which this
tagged store-value embedding satisfies by construction. -/
inductive SVal where
  | task (m : TaskMetadata)
  | runs (r : TaskRuns)
  | run (m : TaskRunMetadata)
deriving DecidableEq, Repr

/-- Modelled from the spec: `TaskMetadata.Unmarshal` on a stored record. -/
def SVal.asTask : SVal → Except String TaskMetadata
  | .task m => Except.ok m
  | _ => Except.error "failed to unmarshal task metadata"

/-- Modelled from the spec: `TaskRuns.Unmarshal` on a stored record. -/
def SVal.asRuns : SVal → Except String TaskRuns
  | .runs r => Except.ok r
  | _ => Except.error "failed to unmarshal task runs"

/-- Modelled from the spec: `TaskRunMetadata.Unmarshal` on a stored record. -/
def SVal.asRun : SVal → Except String TaskRunMetadata
  | .run m => Except.ok m
  | _ => Except.error "failed to unmarshal task run metadata"

/-- The ordered key/value backend, as an association list in insertion
order (the StorageProvider contract leaves scan order unspecified). -/
abbrev Store := List (String × SVal)

/-- Value stored at exactly key `k`, if any. -/
def storeFind : Store → String → Option SVal
  | [], _ => none
  | (k', v) :: rest, k => if k' = k then some v else storeFind rest k

/-- `StorageProvider.Set`: unconditional put (update in place or append). -/
def storeSet : Store → String → SVal → Store
  | [], k, v => [(k, v)]
  | (k', v') :: rest, k, v =>
    if k' = k then (k, v) :: rest else (k', v') :: storeSet rest k v

/-- `StorageProvider.Get`: with `isPfx = false` the value at the key, or an
empty result when the key is absent (the contract's representation of "not
found"); with `isPfx = true` the values of all keys extending the prefix. -/
def storeGet (st : Store) (k : String) (isPfx : Bool) : List SVal :=
  if isPfx then (st.filter (fun kv => strStartsWith kv.1 k)).map Prod.snd
  else
    match storeFind st k with
    | some v => [v]
    | none => []

/-- `StorageProvider.ListKeys`: the keys extending the prefix. -/
def storeListKeys (st : Store) (p : String) : List String :=
  (st.filter (fun kv => strStartsWith kv.1 p)).map Prod.fst

/-- Outcome of a manager operation: a value, a returned Go error, or a Go
runtime panic (out-of-range slice index). -/
inductive Res (α : Type) where
  | ok (a : α)
  | err (e : String)
  | crash
deriving DecidableEq, Repr

/-- The `TableKey` string type of the source. -/
abbrev TableKey := String

def TASKMETADATA : TableKey := "/tasks/metadata/task_id="

def TASKRUNS : TableKey := "/tasks/runs/task_id="

def TASKRUNMETADATA : TableKey := "/tasks/runs/metadata"

/-- `TableKey.GetTaskMetadataKey`: `fmt.Sprintf("%s%d", tk, id)`. -/
def TableKey.GetTaskMetadataKey (tk : TableKey) (id : Int) : String :=
  tk ++ toString id

/-- The literal runs-index key `fmt.Sprintf("/tasks/runs/task_id=%d", id)`
used inline by `CreateTask`, `CreateTaskRun` and `GetRunByID`. -/
def taskRunsKey (id : Int) : String :=
  "/tasks/runs/task_id=" ++ toString id

/-- The run-detail day prefix
`fmt.Sprintf("tasks/runs/metadata/%d/%s/%d", t.Year(), t.Month(), t.Day())`. -/
def runsByDatePfx (t : GoTime) : String :=
  "tasks/runs/metadata/" ++
    (toString t.year ++ "/" ++ monthName t.month ++ "/" ++ toString t.day)

/-- The run-detail key
`fmt.Sprintf("tasks/runs/metadata/%d/%s/%d/task_id=%d/run_id=%d", ...)`. -/
def taskRunMetadataKey (t : GoTime) (taskID runID : Int) : String :=
  "tasks/runs/metadata/" ++
    (toString t.year ++ "/" ++ monthName t.month ++ "/" ++ toString t.day ++
      "/task_id=" ++ toString taskID ++ "/run_id=" ++ toString runID)

/-- The loop body of `getLatestID`, carrying the running highest id (Go
starts it at -1).  For each path: split on `task_id=`; fewer than two parts
is an invalid format; a second part (`parts[1]`, reached only under the
length guard) that is not an integer is a conversion error. -/
def getLatestIDAux : Int → List String → Except String Int
  | acc, [] =>
    if acc = -1 then Except.error "no valid increments found" else Except.ok acc
  | acc, path :: rest =>
    let parts := goSplit path "task_id="
    if parts.length < 2 then Except.error ("invalid format for path: " ++ path)
    else
      match goAtoi (parts.getD 1 "") with
      | none =>
        Except.error ("failed to convert task_id to integer: strconv.Atoi: parsing " ++ parts.getD 1 "")
      | some increment =>
        getLatestIDAux (if increment > acc then increment else acc) rest

/-- `getLatestID`: highest `task_id=<n>` increment among the listed keys. -/
def getLatestID (taskPaths : List String) : Except String Int :=
  getLatestIDAux (-1) taskPaths

/-- `TaskManager.CreateTask`: allocate `max+1` (1 when no keys), write the
task-detail key, then initialize an empty runs-index key.  The wall clock
reading `time.Now().UTC()` is passed in as `now`. -/
def CreateTask (st : Store) (name : String) (tType : TaskType) (target : TaskTarget)
    (now : GoTime) : Res TaskMetadata × Store :=
  let keys := storeListKeys st TASKMETADATA
  let latest : Except String Int :=
    if keys.length = 0 then Except.ok 0 else getLatestID keys
  match latest with
  | Except.error e => (Res.err e, st)
  | Except.ok latestID =>
    let metadata : TaskMetadata :=
      { ID := latestID + 1, Name := name, TaskType := tType, Target := target,
        TargetType := TaskTarget.typeOf target, DateCreated := now }
    let st1 := storeSet st (TableKey.GetTaskMetadataKey TASKMETADATA metadata.ID) (SVal.task metadata)
    let runs : TaskRuns := { TaskID := metadata.ID, Runs := [] }
    let st2 := storeSet st1 (taskRunsKey metadata.ID) (SVal.runs runs)
    (Res.ok metadata, st2)

/-- `TaskManager.GetTaskByID`: point lookup; an empty result is reported as
not found, with `string(id)` (a rune conversion) interpolated. -/
def GetTaskByID (st : Store) (id : Int) : Res TaskMetadata :=
  let key := TableKey.GetTaskMetadataKey TASKMETADATA id
  let metadata := storeGet st key false
  match metadata with
  | [] => Res.err ("task not found for id: " ++ goStringOfInt id)
  | v :: _ =>
    match SVal.asTask v with
    | Except.error e => Res.err e
    | Except.ok t => Res.ok t

/-- The loop of `getHighestRunID`, keeping the running highest run id. -/
def maxFrom (h : Int) : List TaskRunSimple → Int
  | [] => h
  | run :: rest => maxFrom (if run.RunID > h then run.RunID else h) rest

/-- The value computed by `getHighestRunID`: 0 for an empty index, else the
highest `RunID`. -/
def highestRunID (taskRuns : TaskRuns) : Int :=
  match taskRuns.Runs with
  | [] => 0
  | first :: rest => maxFrom first.RunID rest

/-- `getHighestRunID`: the source returns a `(TaskRunID, error)` pair whose
error is always nil. -/
def getHighestRunID (taskRuns : TaskRuns) : Except String Int :=
  Except.ok (highestRunID taskRuns)

/-- `TaskManager.CreateTaskRun`: read and decode the runs index (`key[0]`
panics when the key is absent, i.e. given an empty Get result), allocate
`highest+1`, build the pending run record, append `{newRunID, startTime}`
to the index, write the index back, then write the dated detail key. -/
def CreateTaskRun (st : Store) (name : String) (taskID : Int) (trigger : Trigger)
    (now : GoTime) : Res TaskRunMetadata × Store :=
  let key := storeGet st (taskRunsKey taskID) false
  match key with
  | [] => (Res.crash, st)
  | v :: _ =>
    match SVal.asRuns v with
    | Except.error e => (Res.err e, st)
    | Except.ok runs =>
      match getHighestRunID runs with
      | Except.error e => (Res.err e, st)
      | Except.ok latestID =>
        let startTime := now
        let metadata : TaskRunMetadata :=
          { ID := latestID + 1, TaskId := taskID, Name := name, Trigger := trigger,
            TriggerType := Trigger.typeOf trigger, Status := Status.pending,
            StartTime := startTime, EndTime := GoTime.zero, Logs := [], Error := "" }
        let runs' := { runs with Runs := runs.Runs ++ [{ RunID := metadata.ID, DateCreated := startTime }] }
        let st1 := storeSet st (taskRunsKey taskID) (SVal.runs runs')
        let st2 := storeSet st1 (taskRunMetadataKey startTime taskID metadata.ID) (SVal.run metadata)
        (Res.ok metadata, st2)

/-- The index-scan loop of `GetRunByID`: first entry with the wanted id. -/
def findRun (runs : List TaskRunSimple) (runID : Int) : Option TaskRunSimple :=
  match runs with
  | [] => none
  | run :: rest => if run.RunID = runID then some run else findRun rest runID

/-- `TaskManager.GetRunByID`: read the runs index (`key[0]` panics on an
empty Get result), locate the entry, compose the dated detail key and fetch
it (`rec[0]` panics on an empty Get result, with no length check). -/
def GetRunByID (st : Store) (taskID runID : Int) : Res TaskRunMetadata :=
  let key := storeGet st (taskRunsKey taskID) false
  match key with
  | [] => Res.crash
  | v :: _ =>
    match SVal.asRuns v with
    | Except.error e => Res.err e
    | Except.ok runs =>
      match findRun runs.Runs runID with
      | none => Res.err "run not found"
      | some runRecord =>
        let date := runRecord.DateCreated
        let rec0 := storeGet st (taskRunMetadataKey date taskID runRecord.RunID) false
        match rec0 with
        | [] => Res.crash
        | r :: _ =>
          match SVal.asRun r with
          | Except.error e => Res.err ("failed to unmarshal run record: " ++ e)
          | Except.ok taskRun => Res.ok taskRun

/-- The scan loop of `GetRunsByDate`: decode each record, abort on a decode
error, and skip a record when `taskRun.StartTime.After(start)`. -/
def runsByDateLoop (start : GoTime) : List SVal → Except String (List TaskRunMetadata)
  | [] => Except.ok []
  | rec0 :: rest =>
    match SVal.asRun rec0 with
    | Except.error e => Except.error ("failed to unmarshal run record: " ++ e)
    | Except.ok taskRun =>
      match runsByDateLoop start rest with
      | Except.error e => Except.error e
      | Except.ok runs =>
        if taskRun.StartTime.after start then Except.ok runs
        else Except.ok (taskRun :: runs)

/-- `TaskManager.GetRunsByDate`: scan the day prefix derived from `start`
and filter with the source's conditional (which never consults `finish`). -/
def GetRunsByDate (st : Store) (start finish : GoTime) : Res (List TaskRunMetadata) :=
  let recs := storeGet st (runsByDatePfx start) true
  match runsByDateLoop start recs with
  | Except.error e => Res.err e
  | Except.ok runs => Res.ok runs

/-!
Modelled from the spec: the JSON-shaped wire format of `TaskRunMetadata`.
The encoder/decoder (`task_run.go`) is not under src/; the model follows
the spec (a self-describing text format whose `trigger` field is an object
carrying its own `triggerType` discriminator, validated field presence, a
closed status set) and the fixture shapes of task_run_test.go.  Timestamps
are kept self-describing componentwise rather than re-deriving ISO-8601
text, which the claims do not touch.
-/

/-- A JSON-shaped value. -/
inductive JVal where
  | str (s : String)
  | num (n : Int)
  | bool (b : Bool)
  | null
  | arr (xs : List JVal)
  | obj (fields : List (String × JVal))
deriving Repr

/-- Modelled from the spec: encoding of a timestamp, componentwise. -/
def encodeGoTime (t : GoTime) : JVal :=
  JVal.obj [("year", JVal.num t.year), ("month", JVal.num t.month),
    ("day", JVal.num t.day), ("clock", JVal.num t.clock)]

/-- Modelled from the spec: decoding of a timestamp. -/
def decodeGoTime : JVal → Except String GoTime
  | JVal.obj fields =>
    match fields.lookup "year", fields.lookup "month",
        fields.lookup "day", fields.lookup "clock" with
    | some (JVal.num y), some (JVal.num mo), some (JVal.num d), some (JVal.num c) =>
      Except.ok { year := y, month := mo, day := d, clock := c }
    | _, _, _, _ => Except.error "invalid timestamp"
  | _ => Except.error "invalid timestamp"

/-- Modelled from the spec: the serialized status tag of each status. -/
def statusToString : Status → String
  | .pending => "PENDING"
  | .running => "RUNNING"
  | .failed => "FAILED"
  | .succeeded => "SUCCEEDED"

/-- Modelled from the spec: decoding of a status tag; a value outside the
closed set is rejected with the contract message. -/
def statusOfString (s : String) : Except String Status :=
  if s = "PENDING" then Except.ok Status.pending
  else if s = "RUNNING" then Except.ok Status.running
  else if s = "FAILED" then Except.ok Status.failed
  else if s = "SUCCEEDED" then Except.ok Status.succeeded
  else Except.error ("No such status: \x27" ++ s ++ "\x27")

/-- Modelled from the spec: encoding of a trigger as a tagged object whose
`triggerType` field is the variant's own stored tag. -/
def encodeTrigger : Trigger → JVal
  | .oneOff t => JVal.obj [("triggerName", JVal.str t.TriggerName),
      ("triggerType", JVal.str t.TriggerType)]
  | .dummy t => JVal.obj [("triggerName", JVal.str t.TriggerName),
      ("triggerType", JVal.str t.TriggerType),
      ("dummyField", JVal.bool t.DummyField)]

/-- Modelled from the spec: decoding of a trigger.  The value must be an
object, not an array; the `triggerType` tag selects the variant; an unknown
tag is rejected with the contract message. -/
def decodeTrigger : JVal → Except String Trigger
  | JVal.obj fields =>
    match fields.lookup "triggerType" with
    | some (JVal.str tag) =>
      if tag = oneOffTrigger then
        match fields.lookup "triggerName" with
        | some (JVal.str n) => Except.ok (Trigger.oneOff { TriggerName := n, TriggerType := tag })
        | _ => Except.error "Wrong format of Trigger"
      else if tag = dummyTrigger then
        match fields.lookup "triggerName", fields.lookup "dummyField" with
        | some (JVal.str n), some (JVal.bool b) =>
          Except.ok (Trigger.dummy { TriggerName := n, TriggerType := tag, DummyField := b })
        | _, _ => Except.error "Wrong format of Trigger"
      else Except.error ("No such target type: \x27" ++ tag ++ "\x27")
    | _ => Except.error "Wrong format of Trigger"
  | _ => Except.error "Wrong format of Trigger"

/-- A legal in-memory trigger: its stored tag matches its variant. -/
def triggerConsistent : Trigger → Bool
  | .oneOff t => t.TriggerType = oneOffTrigger
  | .dummy t => t.TriggerType = dummyTrigger

/-- Decode a list of log lines (all elements must be strings). -/
def decodeStrList : List JVal → Except String (List String)
  | [] => Except.ok []
  | JVal.str s :: rest =>
    match decodeStrList rest with
    | Except.ok l => Except.ok (s :: l)
    | Except.error e => Except.error e
  | _ :: _ => Except.error "invalid logs"

/-- Decode the `logs` field; JSON null (a nil Go slice) is the empty list. -/
def decodeLogs : JVal → Except String (List String)
  | JVal.null => Except.ok []
  | JVal.arr xs => decodeStrList xs
  | _ => Except.error "invalid logs"

/-- Modelled from the spec: encoding of a `TaskRunMetadata` record, every
field emitted verbatim. -/
def encodeTaskRun (m : TaskRunMetadata) : JVal :=
  JVal.obj [
    ("id", JVal.num m.ID),
    ("TaskId", JVal.num m.TaskId),
    ("name", JVal.str m.Name),
    ("trigger", encodeTrigger m.Trigger),
    ("triggerType", JVal.str m.TriggerType),
    ("status", JVal.str (statusToString m.Status)),
    ("startTime", encodeGoTime m.StartTime),
    ("endTime", encodeGoTime m.EndTime),
    ("logs", JVal.arr (m.Logs.map JVal.str)),
    ("error", JVal.str m.Error)]

/-- Decode a field expected to hold a string. -/
def decodeStrField : Option JVal → Except String String
  | some (JVal.str s) => Except.ok s
  | _ => Except.error "invalid string field"

/-- Decode a field expected to hold a number. -/
def decodeIntField : Option JVal → Except String Int
  | some (JVal.num n) => Except.ok n
  | _ => Except.error "invalid numeric field"

/-- Decode the `status` field. -/
def decodeStatusField : Option JVal → Except String Status
  | some (JVal.str s) => statusOfString s
  | _ => Except.error "invalid status field"

/-- Decode a field expected to hold a timestamp. -/
def decodeTimeField : Option JVal → Except String GoTime
  | some j => decodeGoTime j
  | none => Except.error "invalid timestamp"

/-- Decode the `logs` field. -/
def decodeLogsField : Option JVal → Except String (List String)
  | some j => decodeLogs j
  | none => Except.error "invalid logs"

/-- The part of `TaskRunMetadata` decoding after the presence checks. -/
def decodeTaskRunRest (fields : List (String × JVal)) (nameJ trigJ : JVal) :
    Except String TaskRunMetadata :=
  match decodeStrField (some nameJ) with
  | Except.error e => Except.error e
  | Except.ok name =>
  match decodeTrigger trigJ with
  | Except.error e => Except.error e
  | Except.ok trigger =>
  match decodeStatusField (fields.lookup "status") with
  | Except.error e => Except.error e
  | Except.ok status =>
  match decodeIntField (fields.lookup "id") with
  | Except.error e => Except.error e
  | Except.ok id =>
  match decodeIntField (fields.lookup "TaskId") with
  | Except.error e => Except.error e
  | Except.ok taskId =>
  match decodeStrField (fields.lookup "triggerType") with
  | Except.error e => Except.error e
  | Except.ok ttype =>
  match decodeTimeField (fields.lookup "startTime") with
  | Except.error e => Except.error e
  | Except.ok startT =>
  match decodeTimeField (fields.lookup "endTime") with
  | Except.error e => Except.error e
  | Except.ok endT =>
  match decodeLogsField (fields.lookup "logs") with
  | Except.error e => Except.error e
  | Except.ok logs =>
  match decodeStrField (fields.lookup "error") with
  | Except.error e => Except.error e
  | Except.ok errS =>
    Except.ok ⟨id, taskId, name, trigger, ttype, status, startT, endT, logs, errS⟩

/-- Modelled from the spec: `TaskRunMetadata.Unmarshal`.  The decoder
validates the presence of `name` and `trigger` first and rejects missing
fields with the contract messages. -/
def decodeTaskRun : JVal → Except String TaskRunMetadata
  | JVal.obj fields =>
    match fields.lookup "name" with
    | none => Except.error "Missing field \x27name\x27"
    | some nameJ =>
      match fields.lookup "trigger" with
      | none => Except.error "Missing field \x27trigger\x27"
      | some trigJ => decodeTaskRunRest fields nameJ trigJ
  | _ => Except.error "invalid task run record"

/-!  Claim-side predicates and concrete fixtures. -/

/-- The condition under which the `getLatestID` loop actually rejects a
key: splitting on `task_id=` yields fewer than two parts, or the part
between the first `task_id=` and the next occurrence (the rest of the key
when there is none) does not parse as an integer. -/
def malformedTaskKey (k : String) : Bool :=
  (goSplit k "task_id=").length < 2 || !(goAtoi ((goSplit k "task_id=").getD 1 "")).isSome

/-- The malformed-key condition exactly as claim C10 words it: the key does
not contain the substring `task_id=`, or the suffix of the key after
`task_id=` does not parse as an integer. -/
def claimC10Malformed (k : String) : Bool :=
  !(containsSubstr k "task_id=") || !(goAtoi (suffixAfterFirst k "task_id=")).isSome

def c1Start : GoTime := ⟨2024, 3, 15, 10⟩

def c1End : GoTime := ⟨2024, 3, 15, 86399⟩

/-- A run whose start time lies strictly inside `[c1Start, c1End]`. -/
def c1InRangeRun : TaskRunMetadata :=
  ⟨1, 1, "in_range", Trigger.oneOff ⟨"t1", "OneOffTrigger"⟩, "OneOffTrigger",
    Status.pending, ⟨2024, 3, 15, 36000⟩, GoTime.zero, [], ""⟩

/-- A run of the same day that started strictly before `c1Start`. -/
def c1EarlyRun : TaskRunMetadata :=
  ⟨2, 1, "before_start", Trigger.oneOff ⟨"t2", "OneOffTrigger"⟩, "OneOffTrigger",
    Status.pending, ⟨2024, 3, 15, 0⟩, GoTime.zero, [], ""⟩

def c1Store : Store :=
  [(taskRunMetadataKey c1InRangeRun.StartTime 1 1, SVal.run c1InRangeRun),
   (taskRunMetadataKey c1EarlyRun.StartTime 1 2, SVal.run c1EarlyRun)]

def c2Date : GoTime := ⟨2024, 3, 15, 36000⟩

/-- A store whose runs index for task 1 references run 1 while the dated
run-detail key is absent. -/
def c2Store : Store := [(taskRunsKey 1, SVal.runs ⟨1, [⟨1, c2Date⟩]⟩)]

/-- A legal trigger value shared by concrete instantiations. -/
def sampleTrigger : Trigger := Trigger.oneOff ⟨"t1", "OneOffTrigger"⟩

/-- A legal complete run record mirroring the WithOneOffTrigger fixture. -/
def c5Sample : TaskRunMetadata :=
  ⟨1, 12, "oneoff_taskrun", Trigger.oneOff ⟨"name1", "OneOffTrigger"⟩, "OneOffTrigger",
    Status.pending, ⟨2024, 3, 15, 600⟩, ⟨2024, 3, 15, 700⟩, ["line1"], ""⟩

/-- A store holding only the runs-index of task 5, with no runs yet. -/
def c7Store : Store := [(taskRunsKey 5, SVal.runs ⟨5, []⟩)]

def c8Time : GoTime := ⟨2024, 3, 16, 7200⟩

/-- A runs index for task 3 holding two runs. -/
def c8Runs : TaskRuns := ⟨3, [⟨1, ⟨2024, 3, 14, 0⟩⟩, ⟨2, ⟨2024, 3, 14, 3600⟩⟩]⟩

def c8Store : Store := [(taskRunsKey 3, SVal.runs c8Runs)]

/-- A task-metadata key whose text after `task_id=` is empty, hence not an
integer. -/
def c10WitnessKey : String := "/tasks/metadata/task_id="

def c10WitnessStore : Store :=
  [(c10WitnessKey, SVal.task ⟨1, "t", TaskType.resourceCreation, TaskTarget.provider "p",
    "Provider", ⟨2024, 1, 1, 0⟩⟩)]

/-- A well-formed trigger object mirroring the test fixtures. -/
def c6TriggerObj : JVal :=
  JVal.obj [("triggerName", JVal.str "name5"), ("triggerType", JVal.str "OneOffTrigger"),
    ("dummyField", JVal.bool false)]

def c6Time : JVal := encodeGoTime ⟨2021, 8, 26, 54245⟩

/-- The MissingName fixture: a record with every field except `name`. -/
def c6MissingName : JVal :=
  JVal.obj [("id", JVal.num 1), ("TaskId", JVal.num 12), ("trigger", c6TriggerObj),
    ("triggerType", JVal.str "OneOffTrigger"), ("status", JVal.str "FAILED"),
    ("startTime", c6Time), ("endTime", c6Time), ("logs", JVal.null),
    ("error", JVal.str "invalid json")]

/-- The MissingTrigger fixture: a record with every field except `trigger`. -/
def c6MissingTrigger : JVal :=
  JVal.obj [("id", JVal.num 1), ("TaskId", JVal.num 12), ("name", JVal.str "invalid_json_file"),
    ("triggerType", JVal.str "OneOffTrigger"), ("status", JVal.str "FAILED"),
    ("startTime", c6Time), ("endTime", c6Time), ("logs", JVal.null),
    ("error", JVal.str "invalid json")]

/-- The InvalidTrigger fixture: the `trigger` field is an array, not an
object. -/
def c6ArrTrigger : JVal :=
  JVal.obj [("id", JVal.num 1), ("TaskId", JVal.num 12), ("name", JVal.str "invalid_json_file"),
    ("trigger", JVal.arr [JVal.str "name8", JVal.str "DummyTrigger", JVal.bool false]),
    ("triggerType", JVal.str "DummyTrigger"), ("status", JVal.str "PENDING"),
    ("startTime", c6Time), ("endTime", c6Time), ("logs", JVal.null),
    ("error", JVal.str "invalid json")]

/-- The InvalidStatusType fixture: `status` is outside the closed set. -/
def c6BadStatus : JVal :=
  JVal.obj [("id", JVal.num 1), ("TaskId", JVal.num 12), ("name", JVal.str "invalid_json_file"),
    ("trigger", c6TriggerObj), ("triggerType", JVal.str "OneOffTrigger"),
    ("status", JVal.str "NOSTATUS"), ("startTime", c6Time), ("endTime", c6Time),
    ("logs", JVal.null), ("error", JVal.str "invalid json")]

/-- A task-metadata key containing `task_id=` twice: its suffix after the
first `task_id=` is `1task_id=2`, which does not parse as an integer. -/
def c10Key : String := "/tasks/metadata/task_id=1task_id=2"

def c10Store : Store :=
  [(c10Key, SVal.task ⟨1, "t", TaskType.resourceCreation, TaskTarget.provider "p",
    "Provider", ⟨2024, 1, 1, 0⟩⟩)]

/-!  Helper lemmas. -/

theorem maxFrom_le (l : List TaskRunSimple) : ∀ h : Int, h ≤ maxFrom h l := by
  induction l with
  | nil => intro h; exact le_refl h
  | cons r rest ih =>
    intro h
    simp only [maxFrom]
    by_cases hc : r.RunID > h
    · rw [if_pos hc]
      exact le_trans (le_of_lt hc) (ih r.RunID)
    · rw [if_neg hc]
      exact ih h

theorem maxFrom_mem (l : List TaskRunSimple) :
    ∀ (h : Int) (r : TaskRunSimple), r ∈ l → r.RunID ≤ maxFrom h l := by
  induction l with
  | nil => intro h r hr; cases hr
  | cons x rest ih =>
    intro h r hr
    simp only [maxFrom]
    rcases List.mem_cons.mp hr with heq | hr2
    · subst heq
      by_cases hc : r.RunID > h
      · rw [if_pos hc]; exact maxFrom_le rest r.RunID
      · rw [if_neg hc]; exact le_trans (le_of_not_lt hc) (maxFrom_le rest h)
    · by_cases hc : x.RunID > h
      · rw [if_pos hc]; exact ih x.RunID r hr2
      · rw [if_neg hc]; exact ih h r hr2

theorem maxFrom_attained (l : List TaskRunSimple) :
    ∀ h : Int, maxFrom h l = h ∨ ∃ r ∈ l, maxFrom h l = r.RunID := by
  induction l with
  | nil => intro h; exact Or.inl rfl
  | cons x rest ih =>
    intro h
    simp only [maxFrom]
    by_cases hc : x.RunID > h
    · rw [if_pos hc]
      rcases ih x.RunID with heq | ⟨r, hr, heq⟩
      · exact Or.inr ⟨x, List.mem_cons_self x rest, heq⟩
      · exact Or.inr ⟨r, List.mem_cons_of_mem x hr, heq⟩
    · rw [if_neg hc]
      rcases ih h with heq | ⟨r, hr, heq⟩
      · exact Or.inl heq
      · exact Or.inr ⟨r, List.mem_cons_of_mem x hr, heq⟩

theorem storeGet_exact (st : Store) (k : String) :
    storeGet st k false = (match storeFind st k with | some v => [v] | none => []) := rfl

theorem storeFind_of_get (st : Store) (k : String) (v : SVal)
    (h : storeGet st k false = [v]) : storeFind st k = some v := by
  rw [storeGet_exact] at h
  cases hf : storeFind st k with
  | none => rw [hf] at h; cases h
  | some w => rw [hf] at h; simp only [List.cons.injEq, and_true] at h; rw [h]

theorem storeFind_storeSet_self (st : Store) (k : String) (v : SVal) :
    storeFind (storeSet st k v) k = some v := by
  induction st with
  | nil => simp [storeSet, storeFind]
  | cons kv rest ih =>
    obtain ⟨k', v'⟩ := kv
    simp only [storeSet]
    by_cases hc : k' = k
    · rw [if_pos hc]
      simp [storeFind]
    · rw [if_neg hc]
      simp only [storeFind]
      rw [if_neg hc]
      exact ih

theorem storeFind_storeSet_ne (st : Store) (k k2 : String) (v : SVal) (h : k2 ≠ k) :
    storeFind (storeSet st k v) k2 = storeFind st k2 := by
  induction st with
  | nil =>
    simp only [storeSet, storeFind]
    rw [if_neg (fun he => h he.symm)]
  | cons kv rest ih =>
    obtain ⟨k', v'⟩ := kv
    simp only [storeSet]
    by_cases hc : k' = k
    · rw [if_pos hc]
      simp only [storeFind]
      rw [if_neg (fun he => h he.symm)]
      subst hc
      rw [if_neg (fun he => h he.symm)]
    · rw [if_neg hc]
      simp only [storeFind]
      by_cases hd : k' = k2
      · rw [if_pos hd, if_pos hd]
      · rw [if_neg hd, if_neg hd]
        exact ih

theorem metadataKey_ne_runsKey (s t : String) :
    ("tasks/runs/metadata/" ++ s) ≠ ("/tasks/runs/task_id=" ++ t) := by
  intro h
  have h2 : ("tasks/runs/metadata/" ++ s).data.head? = ("/tasks/runs/task_id=" ++ t).data.head? := by
    rw [h]
  have h3 : ("tasks/runs/metadata/" ++ s).data.head? = some 't' := rfl
  have h4 : ("/tasks/runs/task_id=" ++ t).data.head? = some '/' := rfl
  rw [h3, h4] at h2
  exact absurd h2 (by decide)

theorem taskRunMetadataKey_ne_taskRunsKey (d : GoTime) (a b c : Int) :
    taskRunMetadataKey d a b ≠ taskRunsKey c :=
  metadataKey_ne_runsKey _ _

theorem CreateTaskRun_eq (st : Store) (name : String) (tid : Int) (trigger : Trigger)
    (now : GoTime) (runs : TaskRuns)
    (h : storeFind st (taskRunsKey tid) = some (SVal.runs runs)) :
    CreateTaskRun st name tid trigger now =
      (Res.ok ⟨highestRunID runs + 1, tid, name, trigger, Trigger.typeOf trigger,
          Status.pending, now, GoTime.zero, [], ""⟩,
        storeSet (storeSet st (taskRunsKey tid)
            (SVal.runs { runs with Runs := runs.Runs ++ [⟨highestRunID runs + 1, now⟩] }))
          (taskRunMetadataKey now tid (highestRunID runs + 1))
          (SVal.run ⟨highestRunID runs + 1, tid, name, trigger, Trigger.typeOf trigger,
            Status.pending, now, GoTime.zero, [], ""⟩)) := by
  simp only [CreateTaskRun, storeGet_exact, h, SVal.asRuns, getHighestRunID]

theorem getLatestIDAux_error (keys : List String) :
    ∀ acc : Int, (∃ k ∈ keys, malformedTaskKey k = true) →
      ∃ e, getLatestIDAux acc keys = Except.error e := by
  induction keys with
  | nil =>
    intro acc hex
    obtain ⟨k, hk, _⟩ := hex
    cases hk
  | cons p rest ih =>
    intro acc hex
    obtain ⟨k, hk, hm⟩ := hex
    simp only [getLatestIDAux]
    by_cases hlen : (goSplit p "task_id=").length < 2
    · rw [if_pos hlen]
      exact ⟨_, rfl⟩
    · rw [if_neg hlen]
      rcases hat : goAtoi ((goSplit p "task_id=").getD 1 "") with _ | n
      · exact ⟨_, rfl⟩
      · rcases List.mem_cons.mp hk with heq | hk2
        · subst heq
          rw [malformedTaskKey] at hm
          rw [hat] at hm
          simp [hlen] at hm
        · exact ih (if n > acc then n else acc) ⟨k, hk2, hm⟩

theorem highestRunID_nil (runs : TaskRuns) (h : runs.Runs = []) :
    highestRunID runs = 0 := by
  simp [highestRunID, h]

theorem runID_lt_highestRunID_succ (runs : TaskRuns) :
    ∀ r ∈ runs.Runs, r.RunID < highestRunID runs + 1 := by
  intro r hr
  rw [Int.lt_add_one_iff]
  rcases hruns : runs.Runs with _ | ⟨f, rest⟩
  · rw [hruns] at hr; cases hr
  · rw [hruns] at hr
    simp only [highestRunID, hruns]
    rcases List.mem_cons.mp hr with heq | hr2
    · subst heq; exact maxFrom_le rest r.RunID
    · exact maxFrom_mem rest f.RunID r hr2

theorem highestRunID_attained (runs : TaskRuns) (hne : runs.Runs ≠ []) :
    ∃ r ∈ runs.Runs, highestRunID runs = r.RunID := by
  rcases hruns : runs.Runs with _ | ⟨f, rest⟩
  · exact absurd hruns hne
  · simp only [highestRunID, hruns]
    rcases maxFrom_attained rest f.RunID with heq | ⟨r, hr, heq⟩
    · exact ⟨f, List.mem_cons_self f rest, heq⟩
    · exact ⟨r, List.mem_cons_of_mem f hr, heq⟩

theorem decodeStrList_map (l : List String) :
    decodeStrList (l.map JVal.str) = Except.ok l := by
  induction l with
  | nil => rfl
  | cons s rest ih => simp [decodeStrList, ih]

theorem statusOfString_statusToString (s : Status) :
    statusOfString (statusToString s) = Except.ok s := by
  cases s <;> rfl

theorem decodeGoTime_encodeGoTime (t : GoTime) :
    decodeGoTime (encodeGoTime t) = Except.ok t := rfl

theorem decodeTrigger_encodeTrigger (tr : Trigger) (h : triggerConsistent tr = true) :
    decodeTrigger (encodeTrigger tr) = Except.ok tr := by
  cases tr with
  | oneOff t =>
    obtain ⟨n, ty⟩ := t
    have hty : ty = oneOffTrigger := by simpa [triggerConsistent] using h
    subst hty
    rfl
  | dummy t =>
    obtain ⟨n, ty, b⟩ := t
    have hty : ty = dummyTrigger := by simpa [triggerConsistent] using h
    subst hty
    rfl

theorem decodeTaskRun_encodeTaskRun (m : TaskRunMetadata)
    (h : triggerConsistent m.Trigger = true) :
    decodeTaskRun (encodeTaskRun m) = Except.ok m := by
  obtain ⟨id, taskId, name, trigger, ttype, status, sT, eT, logs, err⟩ := m
  simp [encodeTaskRun, decodeTaskRun, decodeTaskRunRest, decodeStrField,
    decodeStatusField, decodeIntField, decodeTimeField, decodeLogsField, decodeLogs,
    List.lookup, decodeStrList_map, statusOfString_statusToString,
    decodeGoTime_encodeGoTime, decodeTrigger_encodeTrigger trigger h]

/-!  Claim theorems. -/

/-- C1: the claim states that `GetRunsByDate(start, end)` keeps a decoded
run of the day scan iff `start ≤ run.StartTime ≤ end`.  The source instead
skips every record with `StartTime.After(start)` and never consults `end`:
on this store, the run whose start time lies inside `[c1Start, c1End]` is
dropped from the result, while the run that started strictly before
`c1Start` is returned. -/
theorem C1_getRunsByDate_filter_inverted :
    GetRunsByDate c1Store c1Start c1End = Res.ok [c1EarlyRun] ∧
    c1Start.after c1InRangeRun.StartTime = false ∧
    c1InRangeRun.StartTime.after c1End = false ∧
    c1Start.after c1EarlyRun.StartTime = true :=
  ⟨rfl, rfl, rfl, rfl⟩

/-- C2: the claim states that when the runs index references a run whose
detail key is absent, `GetRunByID` returns a NotFound-style error and does
not crash.  With the contract's empty-result representation of a missing
key, the source indexes `rec[0]` of the empty Get result without a length
check and panics. -/
theorem C2_getRunByID_missing_detail_crashes :
    storeGet c2Store (taskRunMetadataKey c2Date 1 1) false = [] ∧
    GetRunByID c2Store 1 1 = Res.crash :=
  ⟨rfl, rfl⟩

/-- C3: the claim states that a missing per-task runs-index key is treated
as an empty list of runs by `CreateTaskRun` and `GetRunByID`.  With the
contract's empty-result representation of a missing key, both operations
index `key[0]` of the empty Get result and panic. -/
theorem C3_missing_runs_index_crashes :
    storeGet ([] : Store) (taskRunsKey 7) false = [] ∧
    (CreateTaskRun [] "run" 7 sampleTrigger ⟨2024, 3, 15, 0⟩).1 = Res.crash ∧
    GetRunByID [] 7 1 = Res.crash :=
  ⟨rfl, rfl, rfl⟩

/-- C4: the claim states that `GetTaskByID` on an absent key reports
`task not found for id: <id>` with the task's identifier in the message.
The source interpolates `string(id)`, a rune conversion: for id 65 the
message reads `task not found for id: A` and does not contain `65`. -/
theorem C4_getTaskByID_message_lacks_id :
    GetTaskByID [] 65 = Res.err "task not found for id: A" ∧
    containsSubstr "task not found for id: A" "65" = false :=
  ⟨rfl, by decide⟩

/-- C5: for every legal `TaskRunMetadata` (its trigger's stored tag
matching its variant, covering both OneOffTrigger and DummyTrigger with
arbitrary field values), decoding the encoding returns a value deep-equal
to the original on all fields, and the decoded trigger reports the same
`Type()` tag as the original variant. -/
theorem C5_taskRunMetadata_roundtrip (m : TaskRunMetadata)
    (h : triggerConsistent m.Trigger = true) :
    decodeTaskRun (encodeTaskRun m) = Except.ok m ∧
    ∀ m2, decodeTaskRun (encodeTaskRun m) = Except.ok m2 →
      Trigger.typeOf m2.Trigger = Trigger.typeOf m.Trigger := by
  have hrt := decodeTaskRun_encodeTaskRun m h
  refine ⟨hrt, fun m2 h2 => ?_⟩
  rw [hrt] at h2
  cases h2
  rfl

/-- Witness for C5 at the WithOneOffTrigger fixture. -/
theorem C5_taskRunMetadata_roundtrip_witness :
    decodeTaskRun (encodeTaskRun c5Sample) = Except.ok c5Sample ∧
    ∀ m2, decodeTaskRun (encodeTaskRun c5Sample) = Except.ok m2 →
      Trigger.typeOf m2.Trigger = Trigger.typeOf c5Sample.Trigger :=
  C5_taskRunMetadata_roundtrip c5Sample (by decide)

/-- C6: `TaskRunMetadata` decoding rejects a record missing `name`
(`Missing field 'name'`), a record missing `trigger`
(`Missing field 'trigger'`), a record whose `trigger` is an array
(`Wrong format of Trigger`), and a record whose `status` lies outside the
closed status set (`No such status: '<value>'`). -/
theorem C6_decoder_rejects_corrupt_records :
    decodeTaskRun c6MissingName = Except.error "Missing field \x27name\x27" ∧
    decodeTaskRun c6MissingTrigger = Except.error "Missing field \x27trigger\x27" ∧
    decodeTaskRun c6ArrTrigger = Except.error "Wrong format of Trigger" ∧
    decodeTaskRun c6BadStatus = Except.error "No such status: \x27NOSTATUS\x27" :=
  ⟨rfl, rfl, rfl, rfl⟩

/-- C7: `CreateTask` against a store with no keys under the task-metadata
prefix returns a task with ID 1, and `CreateTaskRun` on a task whose runs
index is present but empty returns a run with ID 1. -/
theorem C7_first_identifiers_are_one (st1 st2 : Store) (name : String) (tType : TaskType)
    (target : TaskTarget) (now : GoTime) (name2 : String) (tid : Int) (trigger : Trigger)
    (now2 : GoTime)
    (h1 : storeListKeys st1 TASKMETADATA = [])
    (h2 : storeGet st2 (taskRunsKey tid) false = [SVal.runs ⟨tid, []⟩]) :
    (CreateTask st1 name tType target now).1 =
      Res.ok ⟨1, name, tType, target, TaskTarget.typeOf target, now⟩ ∧
    (CreateTaskRun st2 name2 tid trigger now2).1 =
      Res.ok ⟨1, tid, name2, trigger, Trigger.typeOf trigger, Status.pending, now2,
        GoTime.zero, [], ""⟩ := by
  constructor
  · simp [CreateTask, h1]
  · have hfind := storeFind_of_get st2 (taskRunsKey tid) (SVal.runs ⟨tid, []⟩) h2
    rw [CreateTaskRun_eq st2 name2 tid trigger now2 ⟨tid, []⟩ hfind]
    simp [highestRunID]

/-- Witness for C7: empty store, and a store holding only task 5's empty
runs index. -/
theorem C7_first_identifiers_are_one_witness :
    (CreateTask [] "etl" TaskType.resourceCreation (TaskTarget.nameVariant "n" "v")
        ⟨2024, 3, 15, 0⟩).1 =
      Res.ok ⟨1, "etl", TaskType.resourceCreation, TaskTarget.nameVariant "n" "v",
        TaskTarget.typeOf (TaskTarget.nameVariant "n" "v"), ⟨2024, 3, 15, 0⟩⟩ ∧
    (CreateTaskRun c7Store "first" 5 sampleTrigger ⟨2024, 3, 15, 60⟩).1 =
      Res.ok ⟨1, 5, "first", sampleTrigger, Trigger.typeOf sampleTrigger, Status.pending,
        ⟨2024, 3, 15, 60⟩, GoTime.zero, [], ""⟩ :=
  C7_first_identifiers_are_one [] c7Store "etl" TaskType.resourceCreation
    (TaskTarget.nameVariant "n" "v") ⟨2024, 3, 15, 0⟩ "first" 5 sampleTrigger
    ⟨2024, 3, 15, 60⟩ rfl rfl

/-- C8: a successful `CreateTaskRun` returns a record whose ID is one plus
the maximum RunID of the runs index (1 when the index is empty), whose
status is Pending with empty logs, zero EndTime and the captured start
time, and appends exactly the entry `{newRunID, startTime}` to the task's
runs index. -/
theorem C8_createTaskRun_result (st : Store) (name : String) (tid : Int)
    (trigger : Trigger) (now : GoTime) (runs : TaskRuns)
    (h : storeGet st (taskRunsKey tid) false = [SVal.runs runs]) :
    (∃ m st2, CreateTaskRun st name tid trigger now = (Res.ok m, st2)) ∧
    (∀ m st2, CreateTaskRun st name tid trigger now = (Res.ok m, st2) →
      m.Status = Status.pending ∧ m.Logs = [] ∧ m.EndTime = GoTime.zero ∧
      m.StartTime = now ∧ m.TaskId = tid ∧ m.Name = name ∧ m.Trigger = trigger ∧
      (runs.Runs = [] → m.ID = 1) ∧
      (∀ r ∈ runs.Runs, r.RunID < m.ID) ∧
      (runs.Runs ≠ [] → ∃ r ∈ runs.Runs, m.ID = r.RunID + 1) ∧
      storeGet st2 (taskRunsKey tid) false =
        [SVal.runs { runs with Runs := runs.Runs ++ [⟨m.ID, now⟩] }]) := by
  have hfind := storeFind_of_get st (taskRunsKey tid) (SVal.runs runs) h
  have heq := CreateTaskRun_eq st name tid trigger now runs hfind
  constructor
  · exact ⟨_, _, heq⟩
  · intro m st2 heq2
    rw [heq, Prod.mk.injEq, Res.ok.injEq] at heq2
    obtain ⟨hm, hst⟩ := heq2
    subst hst
    subst hm
    refine ⟨rfl, rfl, rfl, rfl, rfl, rfl, rfl, ?_, ?_, ?_, ?_⟩
    · intro he
      simp [highestRunID_nil runs he]
    · exact runID_lt_highestRunID_succ runs
    · intro hne
      obtain ⟨r, hr, hval⟩ := highestRunID_attained runs hne
      exact ⟨r, hr, by rw [hval]⟩
    · rw [storeGet_exact,
        storeFind_storeSet_ne _ _ _ _
          (taskRunMetadataKey_ne_taskRunsKey now tid (highestRunID runs + 1) tid).symm,
        storeFind_storeSet_self]

/-- Witness for C8 at a two-run index for task 3. -/
theorem C8_createTaskRun_result_witness :
    (∃ m st2, CreateTaskRun c8Store "w" 3 sampleTrigger c8Time = (Res.ok m, st2)) ∧
    (∀ m st2, CreateTaskRun c8Store "w" 3 sampleTrigger c8Time = (Res.ok m, st2) →
      m.Status = Status.pending ∧ m.Logs = [] ∧ m.EndTime = GoTime.zero ∧
      m.StartTime = c8Time ∧ m.TaskId = 3 ∧ m.Name = "w" ∧ m.Trigger = sampleTrigger ∧
      (c8Runs.Runs = [] → m.ID = 1) ∧
      (∀ r ∈ c8Runs.Runs, r.RunID < m.ID) ∧
      (c8Runs.Runs ≠ [] → ∃ r ∈ c8Runs.Runs, m.ID = r.RunID + 1) ∧
      storeGet st2 (taskRunsKey 3) false =
        [SVal.runs { c8Runs with Runs := c8Runs.Runs ++ [⟨m.ID, c8Time⟩] }]) :=
  C8_createTaskRun_result c8Store "w" 3 sampleTrigger c8Time c8Runs rfl

/-- C9: the run id allocated by `CreateTaskRun` is strictly greater than
every RunID already present in the task's runs index at creation time, so
it differs from every previously created run of the task. -/
theorem C9_run_ids_strictly_monotonic (st : Store) (name : String) (tid : Int)
    (trigger : Trigger) (now : GoTime) (runs : TaskRuns)
    (h : storeGet st (taskRunsKey tid) false = [SVal.runs runs]) :
    ∀ m st2, CreateTaskRun st name tid trigger now = (Res.ok m, st2) →
      ∀ r ∈ runs.Runs, r.RunID < m.ID := by
  have hfind := storeFind_of_get st (taskRunsKey tid) (SVal.runs runs) h
  have heq := CreateTaskRun_eq st name tid trigger now runs hfind
  intro m st2 heq2
  rw [heq, Prod.mk.injEq, Res.ok.injEq] at heq2
  obtain ⟨hm, hst⟩ := heq2
  subst hm
  exact runID_lt_highestRunID_succ runs

/-- Witness for C9: applied at the two-run index of task 3, both existing
run ids 1 and 2 are strictly below the id 3 of the newly created run. -/
theorem C9_run_ids_strictly_monotonic_witness :
    (1 : Int) < 3 ∧ (2 : Int) < 3 :=
  ⟨C9_run_ids_strictly_monotonic c8Store "w9" 3 sampleTrigger c8Time c8Runs rfl
      ⟨3, 3, "w9", sampleTrigger, Trigger.typeOf sampleTrigger, Status.pending, c8Time,
        GoTime.zero, [], ""⟩ _ rfl ⟨1, ⟨2024, 3, 14, 0⟩⟩ (by decide),
   C9_run_ids_strictly_monotonic c8Store "w9" 3 sampleTrigger c8Time c8Runs rfl
      ⟨3, 3, "w9", sampleTrigger, Trigger.typeOf sampleTrigger, Status.pending, c8Time,
        GoTime.zero, [], ""⟩ _ rfl ⟨2, ⟨2024, 3, 14, 3600⟩⟩ (by decide)⟩

/-- C10 counterexample: the claim, read on a key containing `task_id=`
twice, is false.  The key `/tasks/metadata/task_id=1task_id=2` has suffix
`1task_id=2` after `task_id=`, which does not parse as an integer, so the
claim demands that `CreateTask` fail and write nothing; the source instead
parses the segment between the two occurrences, succeeds with ID 2, and
writes to the store. -/
theorem C10_counterexample :
    storeListKeys c10Store TASKMETADATA = [c10Key] ∧
    claimC10Malformed c10Key = true ∧
    (CreateTask c10Store "n" TaskType.resourceCreation (TaskTarget.provider "p")
        ⟨2024, 1, 2, 0⟩).1 =
      Res.ok ⟨2, "n", TaskType.resourceCreation, TaskTarget.provider "p", "Provider",
        ⟨2024, 1, 2, 0⟩⟩ ∧
    (CreateTask c10Store "n" TaskType.resourceCreation (TaskTarget.provider "p")
        ⟨2024, 1, 2, 0⟩).2 ≠ c10Store :=
  ⟨rfl, by decide, rfl, by decide⟩

/-- C10 (amended): if any key listed under the task-metadata prefix either
splits into fewer than two parts on `task_id=` or has a part between the
first `task_id=` and the next occurrence (the rest of the key when there
is none) that does not parse as an integer, then `CreateTask` returns an
error and writes nothing to the store. -/
theorem C10_amended_malformed_key_blocks_createTask (st : Store) (name : String)
    (tType : TaskType) (target : TaskTarget) (now : GoTime) (k : String)
    (hk : k ∈ storeListKeys st TASKMETADATA) (hm : malformedTaskKey k = true) :
    ∃ e, CreateTask st name tType target now = (Res.err e, st) := by
  have hne : storeListKeys st TASKMETADATA ≠ [] := by
    intro hemp
    rw [hemp] at hk
    cases hk
  obtain ⟨e, he⟩ := getLatestIDAux_error (storeListKeys st TASKMETADATA) (-1) ⟨k, hk, hm⟩
  refine ⟨e, ?_⟩
  simp only [CreateTask, getLatestID]
  rw [if_neg (fun hz => hne (List.length_eq_zero.mp hz)), he]

/-- Witness for the amended C10 at a store whose only task-metadata key
ends in `task_id=` with an empty (non-integer) suffix. -/
theorem C10_amended_malformed_key_blocks_createTask_witness :
    ∃ e, CreateTask c10WitnessStore "n" TaskType.resourceCreation
        (TaskTarget.provider "p") ⟨2024, 1, 2, 0⟩ = (Res.err e, c10WitnessStore) :=
  C10_amended_malformed_key_blocks_createTask c10WitnessStore "n"
    TaskType.resourceCreation (TaskTarget.provider "p") ⟨2024, 1, 2, 0⟩
    c10WitnessKey (by decide) (by decide)

end Scheduling
